import Mathlib

/- Shallow embedding of wezterm's cursor-trail animation engine:
   src/config/src/cursor_trail.rs (configuration validation) and
   src/wezterm-gui/src/termwindow/cursor_trail.rs (trail state machine).

   Modelling conventions:
   - f32 arithmetic is modelled by exact real arithmetic (every f32 value is a
     rational number, hence a real); configuration scalars are modelled by ℚ.
   - std::time::Instant is modelled as a real-valued timestamp in seconds.
     Duration::as_millis truncation is modelled with an integer floor, and
     Instant::duration_since saturation at zero with a max against 0.
   - &mut self methods become pure state-transition functions; tick returns the
     successor state together with the dirty flag. -/

/-- Model of CursorTrailConfig (src/config/src/cursor_trail.rs, lines 4-34).
    f32 fields are modelled as rationals, u64/usize fields as naturals. -/
structure CursorTrailConfig where
  enabled : Bool
  dwellThreshold : ℕ
  duration : ℕ
  spread : ℚ
  distanceThreshold : ℕ
  opacity : ℚ

/-- CursorTrailConfig::validate (src/config/src/cursor_trail.rs, lines 38-53):
    reject spread <= 1.0 first, then opacity outside [0.0, 1.0]; otherwise Ok.
    The source formats the offending value into the message; the model keeps the
    static part of each message. validate takes &self and is a pure function of
    the configuration (it cannot modify it). -/
def CursorTrailConfig.validate (c : CursorTrailConfig) : Except String Unit :=
  if c.spread ≤ 1 then
    Except.error "cursor_trail.spread must be > 1.0"
  else if c.opacity < 0 ∨ 1 < c.opacity then
    Except.error "cursor_trail.opacity must be between 0.0 and 1.0"
  else
    Except.ok ()

/-- default_duration (milliseconds) -/
def default_duration : ℕ := 100

/-- default_spread -/
def default_spread : ℚ := 4

/-- default_distance_threshold (cells) -/
def default_distance_threshold : ℕ := 2

/-- default_dwell_threshold (milliseconds) -/
def default_dwell_threshold : ℕ := 50

/-- default_opacity -/
def default_opacity : ℚ := 0.8

/-- impl Default for CursorTrailConfig -/
def CursorTrailConfig.default : CursorTrailConfig :=
  { enabled := false
    dwellThreshold := default_dwell_threshold
    duration := default_duration
    spread := default_spread
    distanceThreshold := default_distance_threshold
    opacity := default_opacity }

noncomputable section
open Classical

/-- SETTLED_THRESHOLD (src/wezterm-gui/src/termwindow/cursor_trail.rs line 14):
    distance threshold for considering corners at the cursor. -/
def SETTLED_THRESHOLD : ℝ := 0.1

/-- Pos: a screen position in (modelled) f32 cell coordinates. -/
structure Pos where
  x : ℝ
  y : ℝ

/-- TrailQuad: the four corners of the trail quad, indexed
    0 = top-left, 1 = top-right, 2 = bottom-right, 3 = bottom-left. -/
abbrev TrailQuad := Fin 4 → Pos

/-- TrailQuad::at: the four corners of the 1x1 box anchored at p. -/
def TrailQuad.atPos (p : Pos) : TrailQuad := fun i =>
  match i with
  | 0 => ⟨p.x, p.y⟩
  | 1 => ⟨p.x + 1, p.y⟩
  | 2 => ⟨p.x + 1, p.y + 1⟩
  | 3 => ⟨p.x, p.y + 1⟩

/-- TrailTarget: the edges the quad animates towards. -/
structure TrailTarget where
  top : ℝ
  bottom : ℝ
  left : ℝ
  right : ℝ

/-- TrailTarget::at: the 1x1 cell box anchored at p. -/
def TrailTarget.atPos (p : Pos) : TrailTarget :=
  ⟨p.y, p.y + 1, p.x, p.x + 1⟩

/-- The target_x array [left, right, right, left] of TrailQuad::interp; the
    same per-corner pairing (right when i == 1 || i == 2, else left) is used by
    CursorTrail::settled. -/
def cornerTargetX (t : TrailTarget) : Fin 4 → ℝ := fun i =>
  match i with
  | 0 => t.left
  | 1 => t.right
  | 2 => t.right
  | 3 => t.left

/-- The target_y array [top, top, bottom, bottom] of TrailQuad::interp; the
    same pairing (bottom when i >= 2, else top) is used by
    CursorTrail::settled. -/
def cornerTargetY (t : TrailTarget) : Fin 4 → ℝ := fun i =>
  match i with
  | 0 => t.top
  | 1 => t.top
  | 2 => t.bottom
  | 3 => t.bottom

/-- dx[i] of interp before the 1e-6 clamp (also the dx of settled). -/
def rawDx (q : TrailQuad) (t : TrailTarget) (i : Fin 4) : ℝ :=
  cornerTargetX t i - (q i).x

/-- dy[i] of interp before the 1e-6 clamp (also the dy of settled). -/
def rawDy (q : TrailQuad) (t : TrailTarget) (i : Fin 4) : ℝ :=
  cornerTargetY t i - (q i).y

/-- The 1e-6 displacement clamp condition of interp: both components of the
    corner displacement are below 1e-6 in magnitude. -/
def clamped (q : TrailQuad) (t : TrailTarget) (i : Fin 4) : Prop :=
  |rawDx q t i| < 1e-6 ∧ |rawDy q t i| < 1e-6

/-- target_center_x of interp. -/
def targetCenterX (t : TrailTarget) : ℝ := (t.left + t.right) * 0.5

/-- target_center_y of interp. -/
def targetCenterY (t : TrailTarget) : ℝ := (t.top + t.bottom) * 0.5

/-- target_diag_2 of interp: half the diagonal of the target box. -/
def targetDiag2 (t : TrailTarget) : ℝ :=
  Real.sqrt ((t.right - t.left) ^ 2 + (t.bottom - t.top) ^ 2) * 0.5

/-- The norm of corner i's displacement in interp (its Euclidean distance to
    its paired target corner). -/
def cornerNorm (q : TrailQuad) (t : TrailTarget) (i : Fin 4) : ℝ :=
  Real.sqrt (rawDx q t i ^ 2 + rawDy q t i ^ 2)

/-- dot[i] of interp: alignment score of corner i (0 when clamped). -/
def dotOf (q : TrailQuad) (t : TrailTarget) (i : Fin 4) : ℝ :=
  if clamped q t i then 0
  else (rawDx q t i * (cornerTargetX t i - targetCenterX t) +
        rawDy q t i * (cornerTargetY t i - targetCenterY t)) /
       (targetDiag2 t * cornerNorm q t i)

/-- min_dot of interp. The source folds f32::min over the four dots starting
    from INFINITY, which computes the minimum of the four values. -/
def minDot (q : TrailQuad) (t : TrailTarget) : ℝ :=
  min (min (dotOf q t 0) (dotOf q t 1)) (min (dotOf q t 2) (dotOf q t 3))

/-- max_dot of interp, folded from NEG_INFINITY with f32::max. -/
def maxDot (q : TrailQuad) (t : TrailTarget) : ℝ :=
  max (max (dotOf q t 0) (dotOf q t 1)) (max (dotOf q t 2) (dotOf q t 3))

/-- decay for corner i in interp: the slow constant when the normalization
    range is degenerate, otherwise the min/max rescaled interpolation between
    decay_slow and decay_fast. -/
def decayOf (q : TrailQuad) (t : TrailTarget) (f s : ℝ) (i : Fin 4) : ℝ :=
  if |maxDot q t - minDot q t| < 1e-6 then s
  else s + (f - s) * (dotOf q t i - minDot q t) / (maxDot q t - minDot q t)

/-- step for corner i in interp: the exponential ease-out step factor
    1 - 2^(-10 * dt / decay). Modelled with the real power function. -/
def stepOf (q : TrailQuad) (t : TrailTarget) (dt f s : ℝ) (i : Fin 4) : ℝ :=
  1 - (2 : ℝ) ^ (-10 * dt / decayOf q t f s i)

/-- TrailQuad::interp (src/wezterm-gui/src/termwindow/cursor_trail.rs,
    lines 67-116). The update loop skips a corner when dx[i] == 0 && dy[i] == 0
    after the clamp, which holds exactly when the clamp fired (a raw zero
    displacement satisfies the clamp condition); over ℝ the min_dot
    is_infinite() guard can never fire since all dots are finite reals. -/
def TrailQuad.interp (q : TrailQuad) (t : TrailTarget) (dt f s : ℝ) : TrailQuad :=
  fun i =>
    if clamped q t i then q i
    else ⟨(q i).x + rawDx q t i * stepOf q t dt f s i,
          (q i).y + rawDy q t i * stepOf q t dt f s i⟩

/-- TickContext (src/wezterm-gui/src/termwindow/cursor_trail.rs, lines
    139-146). now is a timestamp in seconds; dwellTreshold keeps the source
    field's spelling and is in milliseconds. -/
structure TickContext where
  cursorPos : Pos
  now : ℝ
  distanceThreshold : ℝ
  decayFast : ℝ
  decaySlow : ℝ
  dwellTreshold : ℕ

/-- TickContext::from_cursor, minus the Instant::now() call (the caller's
    clock reading is passed in): decay_fast = duration/1000 and
    decay_slow = duration * spread / 1000, both in seconds. -/
def TickContext.fromCursor (cursorPos : Pos) (now : ℝ) (c : CursorTrailConfig) :
    TickContext :=
  { cursorPos := cursorPos
    now := now
    distanceThreshold := (c.distanceThreshold : ℝ)
    decayFast := (c.duration : ℝ) / 1000
    decaySlow := ((c.duration : ℝ) * (c.spread : ℝ)) / 1000
    dwellTreshold := c.dwellThreshold }

/-- CursorTrail: the trail state (quad, target, last cursor position and the
    two timestamps, in seconds). -/
structure CursorTrail where
  quad : TrailQuad
  target : TrailTarget
  lastCursorPos : Pos
  cursorLastMoved : ℝ
  updatedAt : ℝ

/-- CursorTrail::new at clock reading now: default (all-zero) quad and target,
    default (0,0) last cursor position, both timestamps set to now. -/
def CursorTrail.new (now : ℝ) : CursorTrail :=
  { quad := fun _ => ⟨0, 0⟩
    target := ⟨0, 0, 0, 0⟩
    lastCursorPos := ⟨0, 0⟩
    cursorLastMoved := now
    updatedAt := now }

/-- The movement-detection step at the top of tick: if the supplied cursor
    position differs from the last observed one, record now as the time the
    cursor last moved and update the last observed position. -/
def moveDetect (s : CursorTrail) (ctx : TickContext) : CursorTrail :=
  if s.lastCursorPos ≠ ctx.cursorPos then
    { s with cursorLastMoved := ctx.now, lastCursorPos := ctx.cursorPos }
  else s

/-- The Manhattan distance from the cursor to the target's top-left anchor
    computed by tick (distance_to_cursor). -/
def distanceToCursor (t : TrailTarget) (p : Pos) : ℝ :=
  |p.x - t.left| + |p.y - t.top|

/-- dwell_time of tick: Instant::duration_since saturates at zero and
    as_millis truncates, so the elapsed milliseconds are the floor of the
    elapsed seconds times 1000, clamped below by 0. -/
def dwellMillis (lastMoved now : ℝ) : ℤ :=
  max 0 ⌊(now - lastMoved) * 1000⌋

/-- settled over a quad/target pair: the body of CursorTrail::settled
    (lines 232-251): for each corner, return false when |dx| > threshold or
    |dy| > threshold, i.e. settled iff no corner violates either bound. -/
def settledQ (q : TrailQuad) (t : TrailTarget) (threshold : ℝ) : Prop :=
  ∀ i : Fin 4, ¬ (threshold < |rawDx q t i| ∨ threshold < |rawDy q t i|)

/-- CursorTrail::settled. -/
def CursorTrail.settled (s : CursorTrail) (threshold : ℝ) : Prop :=
  settledQ s.quad s.target threshold

/-- CursorTrail::tick (src/wezterm-gui/src/termwindow/cursor_trail.rs, lines
    195-230), as a pure function from (state, context) to (state, dirty):
    1. delta_time from the previous update; 2. movement detection;
    3. first-use snap when the target is the zero sentinel; 4. proximity snap
    when 0 < distance <= distance_threshold; 5. dwell gate: retarget only when
    the cursor has dwelled; 6. unconditional interpolation; 7. dirty =
    !settled(SETTLED_THRESHOLD) || !dwelled. -/
def CursorTrail.tick (s0 : CursorTrail) (ctx : TickContext) : CursorTrail × Bool :=
  let deltaTime := max 0 (ctx.now - s0.updatedAt)
  let s1 : CursorTrail := { moveDetect s0 ctx with updatedAt := ctx.now }
  if s1.target.left = 0 ∧ s1.target.right = 0 then
    ({ s1 with target := TrailTarget.atPos ctx.cursorPos
               quad := TrailQuad.atPos ctx.cursorPos }, false)
  else if 0 < distanceToCursor s1.target ctx.cursorPos ∧
          distanceToCursor s1.target ctx.cursorPos ≤ ctx.distanceThreshold then
    ({ s1 with target := TrailTarget.atPos ctx.cursorPos
               quad := TrailQuad.atPos ctx.cursorPos }, false)
  else
    let dwelled : Prop := (ctx.dwellTreshold : ℤ) ≤ dwellMillis s1.cursorLastMoved ctx.now
    let s2 : CursorTrail := if dwelled then { s1 with target := TrailTarget.atPos ctx.cursorPos } else s1
    let s3 : CursorTrail := { s2 with quad := TrailQuad.interp s2.quad s2.target deltaTime ctx.decayFast ctx.decaySlow }
    (s3, decide (¬ s3.settled SETTLED_THRESHOLD ∨ ¬ dwelled))

/-- The zero-sentinel target invariant established by every retargeting branch
    of tick: a genuine 1x1 cell box whose right edge is at least 1. -/
def targetInv (t : TrailTarget) : Prop :=
  t.right = t.left + 1 ∧ t.bottom = t.top + 1 ∧ 1 ≤ t.right

/-- Concrete cursor position (5,5) used by the examples below. -/
def exPos : Pos := ⟨5, 5⟩

/-- Concrete target: the 1x1 box at (5,5). -/
def exTarget : TrailTarget := TrailTarget.atPos exPos

/-- Concrete quad: corner 0 is 0.05 cells to the right of its target corner
    (settled but not clamped), the other corners sit exactly on theirs. -/
def exQuad : TrailQuad := fun i =>
  if i = 0 then ⟨5 + 1/20, 5⟩ else TrailQuad.atPos exPos i

/-- Concrete quad: corner 0 is 5e-7 cells to the right of its target corner
    (inside the 1e-6 clamp), the other corners sit exactly on theirs. -/
def exClampQuad : TrailQuad := fun i =>
  if i = 0 then ⟨5 + 1/2000000, 5⟩ else TrailQuad.atPos exPos i

/-- Concrete resting state: quad exactly on the (5,5) target, cursor last
    moved at time 0, last update at 0.99s. -/
def exRest : CursorTrail := ⟨TrailQuad.atPos exPos, exTarget, exPos, 0, 99/100⟩

/-- Concrete almost-resting state: exQuad against the (5,5) target. -/
def exDrift : CursorTrail := ⟨exQuad, exTarget, exPos, 0, 99/100⟩

/-- Concrete context: cursor unchanged at (5,5), now = 1s, defaults-derived
    tunables (distance 2 cells, decays 0.1s and 0.4s, dwell 50ms). -/
def exCtxHold : TickContext := ⟨exPos, 1, 2, 1/10, 2/5, 50⟩

/-- Concrete state right after a jump: quad and target at (5,5), timestamps 0. -/
def exJump : CursorTrail := ⟨TrailQuad.atPos exPos, exTarget, exPos, 0, 0⟩

/-- Concrete context: a second jump to (20,20) only 10ms later. -/
def exCtxJump : TickContext := ⟨⟨20, 20⟩, 1/100, 2, 1/10, 2/5, 50⟩

lemma moveDetect_target (s : CursorTrail) (ctx : TickContext) :
    (moveDetect s ctx).target = s.target := by
  unfold moveDetect; split <;> rfl

lemma moveDetect_quad (s : CursorTrail) (ctx : TickContext) :
    (moveDetect s ctx).quad = s.quad := by
  unfold moveDetect; split <;> rfl

lemma moveDetect_eq_self {s : CursorTrail} {ctx : TickContext}
    (h : s.lastCursorPos = ctx.cursorPos) : moveDetect s ctx = s := by
  unfold moveDetect
  exact if_neg (fun hne => hne h)

/-- tick in the first-use snap branch. -/
lemma tick_of_sentinel (s0 : CursorTrail) (ctx : TickContext)
    (h : s0.target.left = 0 ∧ s0.target.right = 0) :
    s0.tick ctx =
      ({ moveDetect s0 ctx with
           updatedAt := ctx.now
           target := TrailTarget.atPos ctx.cursorPos
           quad := TrailQuad.atPos ctx.cursorPos }, false) := by
  unfold CursorTrail.tick
  have ht : ({ moveDetect s0 ctx with updatedAt := ctx.now } : CursorTrail).target
      = s0.target := moveDetect_target s0 ctx
  rw [if_pos (by rw [ht]; exact h)]

/-- tick in the proximity snap branch. -/
lemma tick_of_proximity (s0 : CursorTrail) (ctx : TickContext)
    (hsent : ¬ (s0.target.left = 0 ∧ s0.target.right = 0))
    (h1 : 0 < distanceToCursor s0.target ctx.cursorPos)
    (h2 : distanceToCursor s0.target ctx.cursorPos ≤ ctx.distanceThreshold) :
    s0.tick ctx =
      ({ moveDetect s0 ctx with
           updatedAt := ctx.now
           target := TrailTarget.atPos ctx.cursorPos
           quad := TrailQuad.atPos ctx.cursorPos }, false) := by
  unfold CursorTrail.tick
  have ht : ({ moveDetect s0 ctx with updatedAt := ctx.now } : CursorTrail).target
      = s0.target := moveDetect_target s0 ctx
  rw [if_neg (by rw [ht]; exact hsent), if_pos (by rw [ht]; exact ⟨h1, h2⟩)]

/-- tick past the two snap branches: dwell gate, interpolation, dirty flag. -/
lemma tick_of_gate (s0 : CursorTrail) (ctx : TickContext)
    (hsent : ¬ (s0.target.left = 0 ∧ s0.target.right = 0))
    (hprox : ¬ (0 < distanceToCursor s0.target ctx.cursorPos ∧
                distanceToCursor s0.target ctx.cursorPos ≤ ctx.distanceThreshold)) :
    s0.tick ctx =
      (let s1 : CursorTrail := { moveDetect s0 ctx with updatedAt := ctx.now }
       let dwelled : Prop := (ctx.dwellTreshold : ℤ) ≤ dwellMillis s1.cursorLastMoved ctx.now
       let s2 : CursorTrail := if dwelled then { s1 with target := TrailTarget.atPos ctx.cursorPos } else s1
       let s3 : CursorTrail := { s2 with quad := TrailQuad.interp s2.quad s2.target (max 0 (ctx.now - s0.updatedAt)) ctx.decayFast ctx.decaySlow }
       (s3, decide (¬ s3.settled SETTLED_THRESHOLD ∨ ¬ dwelled))) := by
  unfold CursorTrail.tick
  have ht : ({ moveDetect s0 ctx with updatedAt := ctx.now } : CursorTrail).target
      = s0.target := moveDetect_target s0 ctx
  rw [if_neg (by rw [ht]; exact hsent), if_neg (by rw [ht]; exact hprox)]

/-- Every tick leaves the target either snapped to the cursor box or unchanged. -/
lemma tick_target_cases (s0 : CursorTrail) (ctx : TickContext) :
    (s0.tick ctx).1.target = TrailTarget.atPos ctx.cursorPos ∨
    (s0.tick ctx).1.target = s0.target := by
  by_cases hs : s0.target.left = 0 ∧ s0.target.right = 0
  · rw [tick_of_sentinel s0 ctx hs]; exact Or.inl rfl
  · by_cases hp : 0 < distanceToCursor s0.target ctx.cursorPos ∧
        distanceToCursor s0.target ctx.cursorPos ≤ ctx.distanceThreshold
    · rw [tick_of_proximity s0 ctx hs hp.1 hp.2]; exact Or.inl rfl
    · rw [tick_of_gate s0 ctx hs hp]
      by_cases hd : (ctx.dwellTreshold : ℤ) ≤
          dwellMillis ({ moveDetect s0 ctx with updatedAt := ctx.now } : CursorTrail).cursorLastMoved ctx.now
      · left; simp only [if_pos hd]
      · right; simp only [if_neg hd]
        exact moveDetect_target s0 ctx

lemma targetInv_atPos {p : Pos} (hx : 0 ≤ p.x) : targetInv (TrailTarget.atPos p) := by
  refine ⟨rfl, rfl, ?_⟩
  simpa [TrailTarget.atPos] using by linarith

lemma targetInv_not_sentinel {t : TrailTarget} (h : targetInv t) :
    ¬ (t.left = 0 ∧ t.right = 0) := by
  rintro ⟨-, hr⟩
  have := h.2.2
  rw [hr] at this
  norm_num at this

/-- C9: CursorTrailConfig::validate returns an error if and only if
    spread <= 1.0 or opacity lies outside [0.0, 1.0]; for every configuration
    with spread > 1.0 and 0.0 <= opacity <= 1.0 it returns Ok. validate is a
    pure function of the configuration, so it never modifies it. -/
theorem validate_ok_iff (c : CursorTrailConfig) :
    (c.validate = Except.ok () ↔ 1 < c.spread ∧ 0 ≤ c.opacity ∧ c.opacity ≤ 1) ∧
    ((∃ e, c.validate = Except.error e) ↔
      c.spread ≤ 1 ∨ c.opacity < 0 ∨ 1 < c.opacity) := by
  unfold CursorTrailConfig.validate
  split_ifs with h1 h2
  · refine ⟨⟨fun h => by simp at h, fun h => absurd h.1 (not_lt.mpr h1)⟩,
      ⟨fun _ => Or.inl h1, fun _ => ⟨_, rfl⟩⟩⟩
  · refine ⟨⟨fun h => by simp at h, fun h => ?_⟩,
      ⟨fun _ => Or.inr h2, fun _ => ⟨_, rfl⟩⟩⟩
    rcases h2 with h2 | h2
    · exact absurd h2 (not_lt.mpr h.2.1)
    · exact absurd h2 (not_lt.mpr h.2.2)
  · push_neg at h1 h2
    refine ⟨⟨fun _ => ⟨h1, h2.1, h2.2⟩, fun _ => rfl⟩,
      ⟨fun ⟨e, he⟩ => by simp at he, fun h => ?_⟩⟩
    rcases h with h | h | h
    · exact absurd h1 (not_lt.mpr h)
    · exact absurd h (not_lt.mpr h2.1)
    · exact absurd h (not_lt.mpr h2.2)

/-- Witness for C9 at the default configuration (spread 4, opacity 0.8). -/
theorem validate_ok_iff_witness :
    (CursorTrailConfig.default.validate = Except.ok () ↔
      1 < CursorTrailConfig.default.spread ∧ 0 ≤ CursorTrailConfig.default.opacity ∧
        CursorTrailConfig.default.opacity ≤ 1) ∧
    ((∃ e, CursorTrailConfig.default.validate = Except.error e) ↔
      CursorTrailConfig.default.spread ≤ 1 ∨ CursorTrailConfig.default.opacity < 0 ∨
        1 < CursorTrailConfig.default.opacity) :=
  validate_ok_iff CursorTrailConfig.default

/-- C5: for every cursor position, the very first tick on a freshly
    constructed trail state (whose target is the zero sentinel) returns
    dirty == false and leaves the Quad at the four corners of the 1x1 box
    anchored at that cursor position and the Target at that same box. -/
theorem tick_first_use_snap (t0 : ℝ) (ctx : TickContext) :
    ((CursorTrail.new t0).tick ctx).2 = false ∧
    ((CursorTrail.new t0).tick ctx).1.quad = TrailQuad.atPos ctx.cursorPos ∧
    ((CursorTrail.new t0).tick ctx).1.target = TrailTarget.atPos ctx.cursorPos := by
  rw [tick_of_sentinel (CursorTrail.new t0) ctx ⟨rfl, rfl⟩]
  exact ⟨rfl, rfl, rfl⟩

/-- C4: on an initialized trail state (target not the zero sentinel), a tick
    whose cursor sits at Manhattan distance in (0, distance_threshold] from the
    target's top-left anchor snaps both Target and Quad to the 1x1 cell box at
    the cursor and returns dirty == false. -/
theorem tick_proximity_snap (s0 : CursorTrail) (ctx : TickContext)
    (hsent : ¬ (s0.target.left = 0 ∧ s0.target.right = 0))
    (h1 : 0 < distanceToCursor s0.target ctx.cursorPos)
    (h2 : distanceToCursor s0.target ctx.cursorPos ≤ ctx.distanceThreshold) :
    (s0.tick ctx).1.target = TrailTarget.atPos ctx.cursorPos ∧
    (s0.tick ctx).1.quad = TrailQuad.atPos ctx.cursorPos ∧
    (s0.tick ctx).2 = false := by
  rw [tick_of_proximity s0 ctx hsent h1 h2]
  exact ⟨rfl, rfl, rfl⟩

/-- Witness for C4: settled target box at (5,5), cursor at (6,5), one cell
    away, distance_threshold 2. -/
theorem tick_proximity_snap_witness :
    (¬ (((⟨TrailQuad.atPos ⟨5, 5⟩, TrailTarget.atPos ⟨5, 5⟩, ⟨5, 5⟩, 0, 0⟩ : CursorTrail)).target.left = 0 ∧
        ((⟨TrailQuad.atPos ⟨5, 5⟩, TrailTarget.atPos ⟨5, 5⟩, ⟨5, 5⟩, 0, 0⟩ : CursorTrail)).target.right = 0)) ∧
    ((⟨TrailQuad.atPos ⟨5, 5⟩, TrailTarget.atPos ⟨5, 5⟩, ⟨5, 5⟩, 0, 0⟩ : CursorTrail).tick
        ⟨⟨6, 5⟩, 1, 2, 1/10, 2/5, 50⟩).1.target = TrailTarget.atPos ⟨6, 5⟩ ∧
    ((⟨TrailQuad.atPos ⟨5, 5⟩, TrailTarget.atPos ⟨5, 5⟩, ⟨5, 5⟩, 0, 0⟩ : CursorTrail).tick
        ⟨⟨6, 5⟩, 1, 2, 1/10, 2/5, 50⟩).1.quad = TrailQuad.atPos ⟨6, 5⟩ ∧
    ((⟨TrailQuad.atPos ⟨5, 5⟩, TrailTarget.atPos ⟨5, 5⟩, ⟨5, 5⟩, 0, 0⟩ : CursorTrail).tick
        ⟨⟨6, 5⟩, 1, 2, 1/10, 2/5, 50⟩).2 = false := by
  refine ⟨?_, tick_proximity_snap _ _ ?_ ?_ ?_⟩ <;>
    simp [TrailTarget.atPos, distanceToCursor] <;> norm_num

/-- C3: a tick that reaches the dwell gate (neither the first-use nor the
    proximity-snap branch fired) while the elapsed time since the cursor last
    moved is strictly below the dwell threshold leaves all four Target fields
    exactly unchanged (the quad keeps animating toward the previous target). -/
theorem tick_dwell_gate_keeps_target (s0 : CursorTrail) (ctx : TickContext)
    (hsent : ¬ (s0.target.left = 0 ∧ s0.target.right = 0))
    (hprox : ¬ (0 < distanceToCursor s0.target ctx.cursorPos ∧
                distanceToCursor s0.target ctx.cursorPos ≤ ctx.distanceThreshold))
    (hdwell : dwellMillis (moveDetect s0 ctx).cursorLastMoved ctx.now <
              (ctx.dwellTreshold : ℤ)) :
    (s0.tick ctx).1.target = s0.target := by
  rw [tick_of_gate s0 ctx hsent hprox]
  have hnd : ¬ ((ctx.dwellTreshold : ℤ) ≤
      dwellMillis ({ moveDetect s0 ctx with updatedAt := ctx.now } : CursorTrail).cursorLastMoved ctx.now) :=
    not_le.mpr hdwell
  simp only [if_neg hnd]
  exact moveDetect_target s0 ctx

/-- Witness for C3: a jump to (20,20) 10ms after the jump that produced the
    (5,5) target, with dwell_threshold 50ms, leaves the target unchanged. -/
theorem tick_dwell_gate_keeps_target_witness :
    (¬ (exJump.target.left = 0 ∧ exJump.target.right = 0)) ∧
    (¬ (0 < distanceToCursor exJump.target exCtxJump.cursorPos ∧
        distanceToCursor exJump.target exCtxJump.cursorPos ≤ exCtxJump.distanceThreshold)) ∧
    dwellMillis (moveDetect exJump exCtxJump).cursorLastMoved exCtxJump.now <
      (exCtxJump.dwellTreshold : ℤ) ∧
    (exJump.tick exCtxJump).1.target = exJump.target := by
  have hsent : ¬ (exJump.target.left = 0 ∧ exJump.target.right = 0) := by
    norm_num [exJump, exTarget, TrailTarget.atPos, exPos]
  have hprox : ¬ (0 < distanceToCursor exJump.target exCtxJump.cursorPos ∧
      distanceToCursor exJump.target exCtxJump.cursorPos ≤ exCtxJump.distanceThreshold) := by
    norm_num [exJump, exTarget, TrailTarget.atPos, exPos, distanceToCursor, exCtxJump]
  have hmove : moveDetect exJump exCtxJump =
      { exJump with cursorLastMoved := exCtxJump.now, lastCursorPos := exCtxJump.cursorPos } := by
    unfold moveDetect
    rw [if_pos]
    show exJump.lastCursorPos ≠ exCtxJump.cursorPos
    norm_num [exJump, exCtxJump, exPos, Pos.mk.injEq]
  have hdwell : dwellMillis (moveDetect exJump exCtxJump).cursorLastMoved exCtxJump.now <
      (exCtxJump.dwellTreshold : ℤ) := by
    rw [hmove]
    show dwellMillis exCtxJump.now exCtxJump.now < (exCtxJump.dwellTreshold : ℤ)
    norm_num [dwellMillis, exCtxJump]
  exact ⟨hsent, hprox, hdwell, tick_dwell_gate_keeps_target exJump exCtxJump hsent hprox hdwell⟩

/-- C10: the first tick on a fresh state with a nonnegative cursor establishes
    the target invariant right = left + 1 with right >= 1 (and bottom =
    top + 1); every later tick with a nonnegative cursor preserves it, and the
    resulting target is never the zero sentinel (left == 0 and right == 0), so
    the first-use snap branch can fire at most once in a trail's lifetime. -/
theorem tick_target_invariant :
    (∀ (t0 : ℝ) (ctx : TickContext), 0 ≤ ctx.cursorPos.x → 0 ≤ ctx.cursorPos.y →
      targetInv (((CursorTrail.new t0).tick ctx).1.target)) ∧
    (∀ (s0 : CursorTrail) (ctx : TickContext), targetInv s0.target →
      0 ≤ ctx.cursorPos.x → 0 ≤ ctx.cursorPos.y →
      targetInv ((s0.tick ctx).1.target) ∧
      ¬ ((s0.tick ctx).1.target.left = 0 ∧ (s0.tick ctx).1.target.right = 0)) := by
  constructor
  · intro t0 ctx hx _
    rw [tick_of_sentinel (CursorTrail.new t0) ctx ⟨rfl, rfl⟩]
    exact targetInv_atPos hx
  · intro s0 ctx hinv hx _
    have hmain : targetInv ((s0.tick ctx).1.target) := by
      rcases tick_target_cases s0 ctx with h | h
      · rw [h]; exact targetInv_atPos hx
      · rw [h]; exact hinv
    exact ⟨hmain, targetInv_not_sentinel hmain⟩

/-- Witness for C10: the fresh-state part at cursor (5,5) and the preservation
    part across the 10ms jump to (20,20). -/
theorem tick_target_invariant_witness :
    targetInv (((CursorTrail.new 0).tick exCtxHold).1.target) ∧
    targetInv exJump.target ∧
    targetInv ((exJump.tick exCtxJump).1.target) ∧
    ¬ ((exJump.tick exCtxJump).1.target.left = 0 ∧
       (exJump.tick exCtxJump).1.target.right = 0) := by
  have h1 := tick_target_invariant.1 0 exCtxHold
    (by norm_num [exCtxHold, exPos]) (by norm_num [exCtxHold, exPos])
  have hinv : targetInv exJump.target := by
    refine ⟨rfl, rfl, ?_⟩
    show (1 : ℝ) ≤ exPos.x + 1
    norm_num [exPos]
  have h2 := tick_target_invariant.2 exJump exCtxJump hinv
    (by norm_num [exCtxJump]) (by norm_num [exCtxJump])
  exact ⟨h1, hinv, h2.1, h2.2⟩

lemma minDot_le_dotOf (q : TrailQuad) (t : TrailTarget) (i : Fin 4) :
    minDot q t ≤ dotOf q t i := by
  have h0 : minDot q t ≤ dotOf q t 0 := le_trans (min_le_left _ _) (min_le_left _ _)
  have h1 : minDot q t ≤ dotOf q t 1 := le_trans (min_le_left _ _) (min_le_right _ _)
  have h2 : minDot q t ≤ dotOf q t 2 := le_trans (min_le_right _ _) (min_le_left _ _)
  have h3 : minDot q t ≤ dotOf q t 3 := le_trans (min_le_right _ _) (min_le_right _ _)
  fin_cases i
  exacts [h0, h1, h2, h3]

lemma dotOf_le_maxDot (q : TrailQuad) (t : TrailTarget) (i : Fin 4) :
    dotOf q t i ≤ maxDot q t := by
  have h0 : dotOf q t 0 ≤ maxDot q t := le_trans (le_max_left _ _) (le_max_left _ _)
  have h1 : dotOf q t 1 ≤ maxDot q t := le_trans (le_max_right _ _) (le_max_left _ _)
  have h2 : dotOf q t 2 ≤ maxDot q t := le_trans (le_max_left _ _) (le_max_right _ _)
  have h3 : dotOf q t 3 ≤ maxDot q t := le_trans (le_max_right _ _) (le_max_right _ _)
  fin_cases i
  exacts [h0, h1, h2, h3]

/-- When the normalization-range guard does not fire, the range is at least
    1e-6 (so in particular strictly positive and nonzero). -/
lemma dot_range_pos (q : TrailQuad) (t : TrailTarget)
    (hg : ¬ |maxDot q t - minDot q t| < 1e-6) :
    (1e-6 : ℝ) ≤ maxDot q t - minDot q t := by
  have hmM : minDot q t ≤ maxDot q t :=
    le_trans (minDot_le_dotOf q t 0) (dotOf_le_maxDot q t 0)
  have habs : (1e-6 : ℝ) ≤ |maxDot q t - minDot q t| := not_lt.mp hg
  rwa [abs_of_nonneg (by linarith)] at habs

/-- The per-corner decay constant always lies between the two configured decay
    constants. -/
lemma decayOf_mem (q : TrailQuad) (t : TrailTarget) (f s : ℝ) (i : Fin 4) :
    min f s ≤ decayOf q t f s i ∧ decayOf q t f s i ≤ max f s := by
  unfold decayOf
  split_ifs with hg
  · exact ⟨min_le_right f s, le_max_right f s⟩
  · have hMm : (0:ℝ) < maxDot q t - minDot q t := by
      have := dot_range_pos q t hg; linarith
    rw [mul_div_assoc]
    set r : ℝ := (dotOf q t i - minDot q t) / (maxDot q t - minDot q t) with hrdef
    have hr0 : 0 ≤ r := div_nonneg (by linarith [minDot_le_dotOf q t i]) hMm.le
    have hr1 : r ≤ 1 := (div_le_one hMm).mpr (by linarith [dotOf_le_maxDot q t i])
    constructor
    · rcases le_total f s with hfs | hfs
      · rw [min_eq_left hfs]
        nlinarith [mul_nonneg (sub_nonneg.mpr hfs) (sub_nonneg.mpr hr1)]
      · rw [min_eq_right hfs]
        nlinarith [mul_nonneg (sub_nonneg.mpr hfs) hr0]
    · rcases le_total f s with hfs | hfs
      · rw [max_eq_right hfs]
        nlinarith [mul_nonneg (sub_nonneg.mpr hfs) hr0]
      · rw [max_eq_left hfs]
        nlinarith [mul_nonneg (sub_nonneg.mpr hfs) (sub_nonneg.mpr hr1)]

lemma decayOf_pos (q : TrailQuad) (t : TrailTarget) {f s : ℝ}
    (hf : 0 < f) (hs : 0 < s) (i : Fin 4) : 0 < decayOf q t f s i :=
  lt_of_lt_of_le (lt_min hf hs) (decayOf_mem q t f s i).1

lemma decayOf_nonneg (q : TrailQuad) (t : TrailTarget) {f s : ℝ}
    (hf : 0 ≤ f) (hs : 0 ≤ s) (i : Fin 4) : 0 ≤ decayOf q t f s i :=
  le_trans (le_min hf hs) (decayOf_mem q t f s i).1

/-- The retained fraction 2^(-10 dt / decay) is always strictly positive. -/
lemma step_exp_pos (q : TrailQuad) (t : TrailTarget) (dt f s : ℝ) (i : Fin 4) :
    0 < (2 : ℝ) ^ (-10 * dt / decayOf q t f s i) :=
  Real.rpow_pos_of_pos (by norm_num) _

lemma stepOf_lt_one (q : TrailQuad) (t : TrailTarget) (dt f s : ℝ) (i : Fin 4) :
    stepOf q t dt f s i < 1 := by
  unfold stepOf
  linarith [step_exp_pos q t dt f s i]

/-- With nonnegative dt and decay constants, the retained fraction is at most
    one (in the division-by-zero-free real model, decay = 0 gives exponent 0). -/
lemma step_exp_le_one (q : TrailQuad) (t : TrailTarget) {dt f s : ℝ}
    (hdt : 0 ≤ dt) (hf : 0 ≤ f) (hs : 0 ≤ s) (i : Fin 4) :
    (2 : ℝ) ^ (-10 * dt / decayOf q t f s i) ≤ 1 := by
  rcases eq_or_lt_of_le (decayOf_nonneg q t hf hs i) with hd | hd
  · rw [← hd, div_zero, Real.rpow_zero]
  · apply Real.rpow_le_one_of_one_le_of_nonpos (by norm_num)
    apply div_nonpos_of_nonpos_of_nonneg (by linarith) hd.le

lemma step_exp_lt_one (q : TrailQuad) (t : TrailTarget) {dt f s : ℝ}
    (hdt : 0 < dt) (hf : 0 < f) (hs : 0 < s) (i : Fin 4) :
    (2 : ℝ) ^ (-10 * dt / decayOf q t f s i) < 1 := by
  apply Real.rpow_lt_one_of_one_lt_of_neg (by norm_num)
  exact div_neg_of_neg_of_pos (by linarith) (decayOf_pos q t hf hs i)

lemma stepOf_nonneg (q : TrailQuad) (t : TrailTarget) {dt f s : ℝ}
    (hdt : 0 ≤ dt) (hf : 0 ≤ f) (hs : 0 ≤ s) (i : Fin 4) :
    0 ≤ stepOf q t dt f s i := by
  unfold stepOf
  linarith [step_exp_le_one q t hdt hf hs i]

lemma interp_of_clamped {q : TrailQuad} {t : TrailTarget} (dt f s : ℝ) {i : Fin 4}
    (h : clamped q t i) : TrailQuad.interp q t dt f s i = q i := if_pos h

lemma interp_of_not_clamped {q : TrailQuad} {t : TrailTarget} (dt f s : ℝ) {i : Fin 4}
    (h : ¬ clamped q t i) :
    TrailQuad.interp q t dt f s i =
      ⟨(q i).x + rawDx q t i * stepOf q t dt f s i,
       (q i).y + rawDy q t i * stepOf q t dt f s i⟩ := if_neg h

lemma rawDx_interp_clamped {q : TrailQuad} {t : TrailTarget} (dt f s : ℝ) {i : Fin 4}
    (h : clamped q t i) :
    rawDx (TrailQuad.interp q t dt f s) t i = rawDx q t i := by
  unfold rawDx
  rw [interp_of_clamped dt f s h]

lemma rawDy_interp_clamped {q : TrailQuad} {t : TrailTarget} (dt f s : ℝ) {i : Fin 4}
    (h : clamped q t i) :
    rawDy (TrailQuad.interp q t dt f s) t i = rawDy q t i := by
  unfold rawDy
  rw [interp_of_clamped dt f s h]

/-- A corner that is actually stepped retains exactly the fraction
    2^(-10 dt / decay) of its x displacement. -/
lemma rawDx_interp {q : TrailQuad} {t : TrailTarget} (dt f s : ℝ) {i : Fin 4}
    (h : ¬ clamped q t i) :
    rawDx (TrailQuad.interp q t dt f s) t i =
      rawDx q t i * (2 : ℝ) ^ (-10 * dt / decayOf q t f s i) := by
  unfold rawDx
  rw [interp_of_not_clamped dt f s h]
  show cornerTargetX t i - ((q i).x + rawDx q t i * stepOf q t dt f s i) = _
  unfold stepOf rawDx
  ring

lemma rawDy_interp {q : TrailQuad} {t : TrailTarget} (dt f s : ℝ) {i : Fin 4}
    (h : ¬ clamped q t i) :
    rawDy (TrailQuad.interp q t dt f s) t i =
      rawDy q t i * (2 : ℝ) ^ (-10 * dt / decayOf q t f s i) := by
  unfold rawDy
  rw [interp_of_not_clamped dt f s h]
  show cornerTargetY t i - ((q i).y + rawDy q t i * stepOf q t dt f s i) = _
  unfold stepOf rawDy
  ring

lemma settledQ_iff (q : TrailQuad) (t : TrailTarget) (th : ℝ) :
    settledQ q t th ↔ ∀ i : Fin 4, |rawDx q t i| ≤ th ∧ |rawDy q t i| ≤ th := by
  unfold settledQ
  simp [not_or, not_lt]

/-- A corner that escapes the clamp has strictly positive displacement norm. -/
lemma cornerNorm_pos {q : TrailQuad} {t : TrailTarget} {i : Fin 4}
    (h : ¬ clamped q t i) : 0 < cornerNorm q t i := by
  unfold clamped at h
  push_neg at h
  unfold cornerNorm
  apply Real.sqrt_pos.mpr
  rcases lt_or_le |rawDx q t i| 1e-6 with hx | hx
  · have hy := h hx
    have h1 : (1e-6 : ℝ) ^ 2 ≤ |rawDy q t i| ^ 2 := pow_le_pow_left₀ (by norm_num) hy 2
    rw [sq_abs] at h1
    nlinarith [sq_nonneg (rawDx q t i)]
  · have h1 : (1e-6 : ℝ) ^ 2 ≤ |rawDx q t i| ^ 2 := pow_le_pow_left₀ (by norm_num) hx 2
    rw [sq_abs] at h1
    nlinarith [sq_nonneg (rawDy q t i)]

/-- The displacement norm of a stepped corner scales by exactly the retained
    fraction. -/
lemma cornerNorm_interp {q : TrailQuad} {t : TrailTarget} (dt f s : ℝ) {i : Fin 4}
    (h : ¬ clamped q t i) :
    cornerNorm (TrailQuad.interp q t dt f s) t i =
      (2 : ℝ) ^ (-10 * dt / decayOf q t f s i) * cornerNorm q t i := by
  unfold cornerNorm
  rw [rawDx_interp dt f s h, rawDy_interp dt f s h]
  set c : ℝ := (2 : ℝ) ^ (-10 * dt / decayOf q t f s i) with hc
  have hc0 : 0 ≤ c := (step_exp_pos q t dt f s i).le
  rw [show (rawDx q t i * c) ^ 2 + (rawDy q t i * c) ^ 2
      = c ^ 2 * (rawDx q t i ^ 2 + rawDy q t i ^ 2) by ring,
    Real.sqrt_mul (sq_nonneg c), Real.sqrt_sq hc0]

lemma cornerNorm_interp_clamped {q : TrailQuad} {t : TrailTarget} (dt f s : ℝ) {i : Fin 4}
    (h : clamped q t i) :
    cornerNorm (TrailQuad.interp q t dt f s) t i = cornerNorm q t i := by
  unfold cornerNorm
  rw [rawDx_interp_clamped dt f s h, rawDy_interp_clamped dt f s h]

/-- Interpolation with nonnegative dt and decay constants keeps a settled quad
    settled: clamped corners do not move, and stepped corners retain a fraction
    in (0, 1] of each per-axis offset. -/
lemma interp_settledQ {q : TrailQuad} {t : TrailTarget} {dt f s th : ℝ}
    (hdt : 0 ≤ dt) (hf : 0 ≤ f) (hs : 0 ≤ s)
    (h : settledQ q t th) : settledQ (TrailQuad.interp q t dt f s) t th := by
  rw [settledQ_iff] at h ⊢
  intro i
  by_cases hc : clamped q t i
  · rw [rawDx_interp_clamped dt f s hc, rawDy_interp_clamped dt f s hc]
    exact h i
  · rw [rawDx_interp dt f s hc, rawDy_interp dt f s hc]
    set c : ℝ := (2 : ℝ) ^ (-10 * dt / decayOf q t f s i) with hcdef
    have hc0 : 0 < c := step_exp_pos q t dt f s i
    have hc1 : c ≤ 1 := step_exp_le_one q t hdt hf hs i
    constructor
    · calc |rawDx q t i * c| = |rawDx q t i| * c := by rw [abs_mul, abs_of_pos hc0]
      _ ≤ |rawDx q t i| * 1 := mul_le_mul_of_nonneg_left hc1 (abs_nonneg _)
      _ = |rawDx q t i| := mul_one _
      _ ≤ th := (h i).1
    · calc |rawDy q t i * c| = |rawDy q t i| * c := by rw [abs_mul, abs_of_pos hc0]
      _ ≤ |rawDy q t i| * 1 := mul_le_mul_of_nonneg_left hc1 (abs_nonneg _)
      _ = |rawDy q t i| := mul_one _
      _ ≤ th := (h i).2

lemma one_le_sqrt_two : (1 : ℝ) ≤ Real.sqrt 2 := by
  rw [show (1 : ℝ) = Real.sqrt 1 from (Real.sqrt_one).symm]
  exact Real.sqrt_le_sqrt (by norm_num)

/-- A freshly snapped quad sits exactly on its target corners. -/
lemma rawDx_atPos (p : Pos) (i : Fin 4) :
    rawDx (TrailQuad.atPos p) (TrailTarget.atPos p) i = 0 := by
  fin_cases i <;>
    norm_num [rawDx, TrailQuad.atPos, TrailTarget.atPos, cornerTargetX]

lemma rawDy_atPos (p : Pos) (i : Fin 4) :
    rawDy (TrailQuad.atPos p) (TrailTarget.atPos p) i = 0 := by
  fin_cases i <;>
    norm_num [rawDy, TrailQuad.atPos, TrailTarget.atPos, cornerTargetY]

lemma ex_rawDx0 : rawDx exQuad exTarget 0 = -(1/20) := by
  norm_num [rawDx, exQuad, exTarget, TrailTarget.atPos, cornerTargetX, exPos]

lemma ex_rawDy0 : rawDy exQuad exTarget 0 = 0 := by
  norm_num [rawDy, exQuad, exTarget, TrailTarget.atPos, cornerTargetY, exPos]

lemma ex_not_clamped : ¬ clamped exQuad exTarget 0 := by
  unfold clamped
  rw [ex_rawDx0, abs_neg, abs_of_nonneg (by norm_num : (0:ℝ) ≤ 1/20)]
  rintro ⟨h, -⟩
  norm_num at h

lemma exQuad_ne (k : Fin 4) (hk : k ≠ 0) : exQuad k = TrailQuad.atPos exPos k := by
  unfold exQuad
  rw [if_neg hk]

lemma ex_clamped_rest (k : Fin 4) (hk : k ≠ 0) : clamped exQuad exTarget k := by
  unfold clamped rawDx rawDy
  rw [exQuad_ne k hk]
  fin_cases k
  · exact absurd rfl hk
  all_goals
    constructor <;>
      norm_num [exTarget, TrailTarget.atPos, TrailQuad.atPos,
        cornerTargetX, cornerTargetY, exPos]

lemma ex_dot_rest (k : Fin 4) (hk : k ≠ 0) : dotOf exQuad exTarget k = 0 := by
  unfold dotOf
  rw [if_pos (ex_clamped_rest k hk)]

lemma ex_norm0 : cornerNorm exQuad exTarget 0 = 1/20 := by
  unfold cornerNorm
  rw [ex_rawDx0, ex_rawDy0,
    show (-(1/20) : ℝ) ^ 2 + (0:ℝ) ^ 2 = (1/20) ^ 2 by norm_num]
  exact Real.sqrt_sq (by norm_num)

lemma ex_diag : targetDiag2 exTarget = Real.sqrt 2 / 2 := by
  unfold targetDiag2
  rw [show (exTarget.right - exTarget.left) ^ 2 + (exTarget.bottom - exTarget.top) ^ 2 = (2:ℝ) by
    norm_num [exTarget, TrailTarget.atPos, exPos]]
  ring

lemma ex_dot0 : dotOf exQuad exTarget 0 = Real.sqrt 2 / 2 := by
  unfold dotOf
  rw [if_neg ex_not_clamped, ex_rawDx0, ex_rawDy0, ex_diag, ex_norm0]
  have hx : cornerTargetX exTarget 0 - targetCenterX exTarget = -(1/2) := by
    norm_num [cornerTargetX, targetCenterX, exTarget, TrailTarget.atPos, exPos]
  rw [hx]
  have h2 : Real.sqrt 2 * Real.sqrt 2 = 2 := Real.mul_self_sqrt (by norm_num)
  have hpos : (0:ℝ) < Real.sqrt 2 / 2 * (1/20) := by positivity
  rw [div_eq_iff (ne_of_gt hpos)]
  ring_nf
  nlinarith [h2]

lemma ex_minDot : minDot exQuad exTarget = 0 := by
  unfold minDot
  rw [ex_dot0, ex_dot_rest 1 (by decide), ex_dot_rest 2 (by decide), ex_dot_rest 3 (by decide),
    min_eq_right (by positivity : (0:ℝ) ≤ Real.sqrt 2 / 2), min_self, min_self]

lemma ex_maxDot : maxDot exQuad exTarget = Real.sqrt 2 / 2 := by
  unfold maxDot
  rw [ex_dot0, ex_dot_rest 1 (by decide), ex_dot_rest 2 (by decide), ex_dot_rest 3 (by decide),
    max_eq_left (by positivity : (0:ℝ) ≤ Real.sqrt 2 / 2), max_self,
    max_eq_left (by positivity : (0:ℝ) ≤ Real.sqrt 2 / 2)]

lemma ex_guard : ¬ |maxDot exQuad exTarget - minDot exQuad exTarget| < 1e-6 := by
  rw [ex_maxDot, ex_minDot, sub_zero, abs_of_nonneg (by positivity), not_lt]
  nlinarith [one_le_sqrt_two]

lemma ex_decay0 : decayOf exQuad exTarget (1/10) (2/5) 0 = 1/10 := by
  unfold decayOf
  rw [if_neg ex_guard, ex_dot0, ex_minDot, ex_maxDot, sub_zero, mul_div_assoc,
    div_self (by positivity : (Real.sqrt 2 / 2 : ℝ) ≠ 0)]
  norm_num

lemma ex_step0 : stepOf exQuad exTarget (1/100) (1/10) (2/5) 0 = 1/2 := by
  unfold stepOf
  rw [ex_decay0, show (-10 * (1/100) / (1/10) : ℝ) = ((-1 : ℤ) : ℝ) by norm_num,
    Real.rpow_intCast]
  norm_num

/-- C2 (amended): for every target box, every dt > 0 and positive decay
    constants, one application of interp never increases any corner's Euclidean
    distance to its paired target corner; every corner whose displacement
    escapes the 1e-6 clamp has its distance strictly reduced and its
    displacement scaled by a factor in (0,1) — it approaches its target without
    overshooting or oscillating. Corners inside the clamp (including corners
    already exactly on target) keep their distance unchanged, so the strict
    reduction claimed for every corner fails only for them. -/
theorem interp_monotone_approach (q : TrailQuad) (t : TrailTarget) (dt f s : ℝ)
    (hdt : 0 < dt) (hf : 0 < f) (hs : 0 < s) (i : Fin 4) :
    cornerNorm (TrailQuad.interp q t dt f s) t i ≤ cornerNorm q t i ∧
    (¬ clamped q t i →
      cornerNorm (TrailQuad.interp q t dt f s) t i < cornerNorm q t i ∧
      ∃ c : ℝ, 0 < c ∧ c < 1 ∧
        rawDx (TrailQuad.interp q t dt f s) t i = rawDx q t i * c ∧
        rawDy (TrailQuad.interp q t dt f s) t i = rawDy q t i * c) := by
  by_cases hc : clamped q t i
  · exact ⟨le_of_eq (cornerNorm_interp_clamped dt f s hc), fun h => absurd hc h⟩
  · have hc0 : 0 < (2:ℝ) ^ (-10 * dt / decayOf q t f s i) := step_exp_pos q t dt f s i
    have hc1 : (2:ℝ) ^ (-10 * dt / decayOf q t f s i) < 1 := step_exp_lt_one q t hdt hf hs i
    have hnorm : 0 < cornerNorm q t i := cornerNorm_pos hc
    have hscale := cornerNorm_interp dt f s hc
    refine ⟨by rw [hscale]; nlinarith, fun _ => ⟨by rw [hscale]; nlinarith,
      _, hc0, hc1, rawDx_interp dt f s hc, rawDy_interp dt f s hc⟩⟩

/-- C2 counterexample: corner 0 of exClampQuad sits 5e-7 cells from its target
    corner, inside the 1e-6 clamp, so interp (here with dt = 0.01 and the
    default decay constants 0.1 and 0.4) leaves its distance unchanged: the
    claimed strict decrease of every corner's distance fails. -/
theorem interp_strict_decrease_cx :
    ¬ (cornerNorm (TrailQuad.interp exClampQuad exTarget (1/100) (1/10) (2/5)) exTarget 0 <
       cornerNorm exClampQuad exTarget 0) := by
  have hdx : rawDx exClampQuad exTarget 0 = -(1/2000000) := by
    norm_num [rawDx, exClampQuad, exTarget, TrailTarget.atPos, cornerTargetX, exPos]
  have hdy : rawDy exClampQuad exTarget 0 = 0 := by
    norm_num [rawDy, exClampQuad, exTarget, TrailTarget.atPos, cornerTargetY, exPos]
  have hc : clamped exClampQuad exTarget 0 := by
    unfold clamped
    rw [hdx, hdy, abs_neg, abs_of_nonneg (by norm_num : (0:ℝ) ≤ 1/2000000), abs_zero]
    norm_num
  rw [cornerNorm_interp_clamped (1/100) (1/10) (2/5) hc]
  exact lt_irrefl _

/-- Witness for C2 (amended) at exQuad corner 0, dt = 0.01, decays 0.1/0.4. -/
theorem interp_monotone_approach_witness :
    cornerNorm (TrailQuad.interp exQuad exTarget (1/100) (1/10) (2/5)) exTarget 0 ≤
      cornerNorm exQuad exTarget 0 ∧
    (¬ clamped exQuad exTarget 0 →
      cornerNorm (TrailQuad.interp exQuad exTarget (1/100) (1/10) (2/5)) exTarget 0 <
        cornerNorm exQuad exTarget 0 ∧
      ∃ c : ℝ, 0 < c ∧ c < 1 ∧
        rawDx (TrailQuad.interp exQuad exTarget (1/100) (1/10) (2/5)) exTarget 0 =
          rawDx exQuad exTarget 0 * c ∧
        rawDy (TrailQuad.interp exQuad exTarget (1/100) (1/10) (2/5)) exTarget 0 =
          rawDy exQuad exTarget 0 * c) :=
  interp_monotone_approach exQuad exTarget (1/100) (1/10) (2/5)
    (by norm_num) (by norm_num) (by norm_num) 0

/-- C6: with decay_fast < decay_slow (both positive) and a fixed dt > 0, the
    corner with the maximal alignment score gets an effective decay constant no
    larger than the corner with the minimal score, so its ease-out step factor
    (the fraction of remaining displacement covered) is no smaller. -/
theorem decay_ordering (q : TrailQuad) (t : TrailTarget) (dt f s : ℝ)
    (hf : 0 < f) (hfs : f < s) (hdt : 0 < dt) (i j : Fin 4)
    (hmax : ∀ k, dotOf q t k ≤ dotOf q t i)
    (hmin : ∀ k, dotOf q t j ≤ dotOf q t k) :
    decayOf q t f s i ≤ decayOf q t f s j ∧
    stepOf q t dt f s j ≤ stepOf q t dt f s i := by
  have hs : 0 < s := lt_trans hf hfs
  have hji : dotOf q t j ≤ dotOf q t i := hmin i
  have hdec : decayOf q t f s i ≤ decayOf q t f s j := by
    unfold decayOf
    split_ifs with hg
    · exact le_refl s
    · have hMm : (0:ℝ) < maxDot q t - minDot q t := by
        have := dot_range_pos q t hg; linarith
      rw [mul_div_assoc, mul_div_assoc]
      have hr : (dotOf q t j - minDot q t) / (maxDot q t - minDot q t) ≤
                (dotOf q t i - minDot q t) / (maxDot q t - minDot q t) :=
        (div_le_div_iff_of_pos_right hMm).mpr (by linarith)
      linarith [mul_le_mul_of_nonpos_left hr (show f - s ≤ 0 by linarith)]
  refine ⟨hdec, ?_⟩
  have hdi : 0 < decayOf q t f s i := decayOf_pos q t hf hs i
  have hinv : 1 / decayOf q t f s j ≤ 1 / decayOf q t f s i :=
    one_div_le_one_div_of_le hdi hdec
  have key : 10 * dt / decayOf q t f s j ≤ 10 * dt / decayOf q t f s i := by
    rw [div_eq_mul_one_div (10 * dt) (decayOf q t f s j),
      div_eq_mul_one_div (10 * dt) (decayOf q t f s i)]
    exact mul_le_mul_of_nonneg_left hinv (by linarith)
  have hexp : -10 * dt / decayOf q t f s i ≤ -10 * dt / decayOf q t f s j := by
    rw [show -10 * dt / decayOf q t f s i = -(10 * dt / decayOf q t f s i) by ring,
      show -10 * dt / decayOf q t f s j = -(10 * dt / decayOf q t f s j) by ring]
    exact neg_le_neg key
  have hpow := Real.rpow_le_rpow_of_exponent_le (show (1:ℝ) ≤ 2 by norm_num) hexp
  unfold stepOf
  linarith

/-- Witness for C6: in exQuad against exTarget, corner 0 carries the maximal
    alignment score and corner 1 a minimal one, with decays 0.1 < 0.4 and
    dt = 0.01. -/
theorem decay_ordering_witness :
    (∀ k, dotOf exQuad exTarget k ≤ dotOf exQuad exTarget 0) ∧
    (∀ k, dotOf exQuad exTarget 1 ≤ dotOf exQuad exTarget k) ∧
    decayOf exQuad exTarget (1/10) (2/5) 0 ≤ decayOf exQuad exTarget (1/10) (2/5) 1 ∧
    stepOf exQuad exTarget (1/100) (1/10) (2/5) 1 ≤ stepOf exQuad exTarget (1/100) (1/10) (2/5) 0 := by
  have hmax : ∀ k, dotOf exQuad exTarget k ≤ dotOf exQuad exTarget 0 := by
    intro k
    by_cases hk : k = 0
    · rw [hk]
    · rw [ex_dot_rest k hk, ex_dot0]
      positivity
  have hmin : ∀ k, dotOf exQuad exTarget 1 ≤ dotOf exQuad exTarget k := by
    intro k
    rw [ex_dot_rest 1 (by decide)]
    by_cases hk : k = 0
    · rw [hk, ex_dot0]; positivity
    · rw [ex_dot_rest k hk]
  have h := decay_ordering exQuad exTarget (1/100) (1/10) (2/5)
    (by norm_num) (by norm_num) (by norm_num) 0 1 hmax hmin
  exact ⟨hmax, hmin, h.1, h.2⟩

/-- C7: settled compares each per-axis offset to SETTLED_THRESHOLD = 0.1 with
    a strict >: a state whose corners all sit exactly 0.1 cells off both their
    target edges is settled, while a single per-axis offset of 0.10001 makes
    settled false. -/
theorem settled_threshold_boundary :
    (CursorTrail.mk
        (fun i => ⟨cornerTargetX exTarget i - 1/10, cornerTargetY exTarget i - 1/10⟩)
        exTarget exPos 0 0).settled SETTLED_THRESHOLD ∧
    ¬ (CursorTrail.mk
        (fun i => if i = 0 then ⟨cornerTargetX exTarget 0 - 10001/100000, cornerTargetY exTarget 0⟩
                  else TrailQuad.atPos exPos i)
        exTarget exPos 0 0).settled SETTLED_THRESHOLD := by
  constructor
  · intro i
    have hdx : rawDx
        (fun i => (⟨cornerTargetX exTarget i - 1/10, cornerTargetY exTarget i - 1/10⟩ : Pos))
        exTarget i = 1/10 := by
      unfold rawDx
      show cornerTargetX exTarget i - (cornerTargetX exTarget i - 1/10) = 1/10
      ring
    have hdy : rawDy
        (fun i => (⟨cornerTargetX exTarget i - 1/10, cornerTargetY exTarget i - 1/10⟩ : Pos))
        exTarget i = 1/10 := by
      unfold rawDy
      show cornerTargetY exTarget i - (cornerTargetY exTarget i - 1/10) = 1/10
      ring
    show ¬ (SETTLED_THRESHOLD < |rawDx _ exTarget i| ∨ SETTLED_THRESHOLD < |rawDy _ exTarget i|)
    rw [hdx, hdy, abs_of_nonneg (by norm_num : (0:ℝ) ≤ 1/10), not_or, not_lt]
    unfold SETTLED_THRESHOLD
    norm_num
  · intro hset
    have h0 := hset 0
    rw [not_or] at h0
    apply h0.1
    have hdx : rawDx
        (fun i => if i = 0 then (⟨cornerTargetX exTarget 0 - 10001/100000, cornerTargetY exTarget 0⟩ : Pos)
                  else TrailQuad.atPos exPos i)
        exTarget 0 = 10001/100000 := by
      unfold rawDx
      show cornerTargetX exTarget 0 -
          (if (0 : Fin 4) = 0 then
            (⟨cornerTargetX exTarget 0 - 10001/100000, cornerTargetY exTarget 0⟩ : Pos)
           else TrailQuad.atPos exPos 0).x = 10001/100000
      rw [if_pos rfl]
      show cornerTargetX exTarget 0 - (cornerTargetX exTarget 0 - 10001/100000) = 10001/100000
      ring
    rw [hdx, abs_of_nonneg (by norm_num : (0:ℝ) ≤ 10001/100000)]
    unfold SETTLED_THRESHOLD
    norm_num

/-- C8: over the real model interp is total and never divides by zero (reals
    have no NaN; the claim's guards are what rule the zero divisors out): for
    any quad, any 1x1 target box, dt >= 0 and positive decay constants,
    a corner displacement with both components below 1e-6 is clamped and the
    corner skipped (its dot division is never performed and it stays put); for
    every stepped corner the dot divisor target_diag_2 * norm is nonzero; when
    the normalization range is below 1e-6 every corner falls back to the slow
    decay constant (the range division is never performed), otherwise the range
    divisor is nonzero; and every per-corner decay (the step exponent's
    divisor) is nonzero. -/
theorem interp_no_division_by_zero (q : TrailQuad) (t : TrailTarget) (dt f s : ℝ)
    (h1 : t.right = t.left + 1) (h2 : t.bottom = t.top + 1)
    (hdt : 0 ≤ dt) (hf : 0 < f) (hs : 0 < s) :
    (∀ i, clamped q t i → TrailQuad.interp q t dt f s i = q i) ∧
    (∀ i, ¬ clamped q t i → targetDiag2 t * cornerNorm q t i ≠ 0) ∧
    (|maxDot q t - minDot q t| < 1e-6 → ∀ i, decayOf q t f s i = s) ∧
    (¬ |maxDot q t - minDot q t| < 1e-6 → maxDot q t - minDot q t ≠ 0) ∧
    (∀ i, decayOf q t f s i ≠ 0) := by
  have hdiag : 0 < targetDiag2 t := by
    unfold targetDiag2
    rw [h1, h2, show (t.left + 1 - t.left) ^ 2 + (t.top + 1 - t.top) ^ 2 = (2:ℝ) by ring]
    positivity
  refine ⟨fun i hc => interp_of_clamped dt f s hc,
    fun i hc => ne_of_gt (mul_pos hdiag (cornerNorm_pos hc)),
    fun hg i => by unfold decayOf; rw [if_pos hg],
    fun hg => ?_,
    fun i => ne_of_gt (decayOf_pos q t hf hs i)⟩
  have hr := dot_range_pos q t hg
  intro h0
  rw [h0] at hr
  norm_num at hr

/-- Normal form of tick when the snap branches do not fire, the cursor is
    unchanged and the dwell gate passes. -/
lemma tick_of_dwelled (s0 : CursorTrail) (ctx : TickContext)
    (hsent : ¬ (s0.target.left = 0 ∧ s0.target.right = 0))
    (hprox : ¬ (0 < distanceToCursor s0.target ctx.cursorPos ∧
                distanceToCursor s0.target ctx.cursorPos ≤ ctx.distanceThreshold))
    (hcur : s0.lastCursorPos = ctx.cursorPos)
    (hdw : (ctx.dwellTreshold : ℤ) ≤ dwellMillis s0.cursorLastMoved ctx.now) :
    s0.tick ctx =
      ({ quad := TrailQuad.interp s0.quad (TrailTarget.atPos ctx.cursorPos)
                   (max 0 (ctx.now - s0.updatedAt)) ctx.decayFast ctx.decaySlow
         target := TrailTarget.atPos ctx.cursorPos
         lastCursorPos := s0.lastCursorPos
         cursorLastMoved := s0.cursorLastMoved
         updatedAt := ctx.now },
       decide (¬ settledQ (TrailQuad.interp s0.quad (TrailTarget.atPos ctx.cursorPos)
                   (max 0 (ctx.now - s0.updatedAt)) ctx.decayFast ctx.decaySlow)
                  (TrailTarget.atPos ctx.cursorPos) SETTLED_THRESHOLD ∨
               ¬ ((ctx.dwellTreshold : ℤ) ≤ dwellMillis s0.cursorLastMoved ctx.now))) := by
  rw [tick_of_gate s0 ctx hsent hprox, moveDetect_eq_self hcur]
  have hdw' : (ctx.dwellTreshold : ℤ) ≤
      dwellMillis ({ s0 with updatedAt := ctx.now } : CursorTrail).cursorLastMoved ctx.now := hdw
  simp only [if_pos hdw']
  rfl

/-- C1 (amended): in a settled resting state — the cursor unchanged, sitting at
    the Target's anchor and not moved for at least the dwell threshold, with
    nonnegative decay constants — any further tick leaves the Target fields
    unchanged, returns dirty == false and keeps the Quad settled; but the Quad
    corners themselves are only guaranteed unchanged when every corner is
    inside the 1e-6 clamp of its target corner (as after a snap): a settled
    corner outside the clamp still moves (see the counterexample). -/
theorem tick_idempotent_rest (s0 : CursorTrail) (ctx : TickContext)
    (hset : s0.settled SETTLED_THRESHOLD)
    (hcur : s0.lastCursorPos = ctx.cursorPos)
    (htgt : s0.target = TrailTarget.atPos ctx.cursorPos)
    (hdwell : (ctx.dwellTreshold : ℝ) ≤ (ctx.now - s0.cursorLastMoved) * 1000)
    (hf : 0 ≤ ctx.decayFast) (hs : 0 ≤ ctx.decaySlow) :
    (s0.tick ctx).1.target = s0.target ∧
    (s0.tick ctx).2 = false ∧
    (s0.tick ctx).1.settled SETTLED_THRESHOLD ∧
    ((∀ i, clamped s0.quad s0.target i) → (s0.tick ctx).1.quad = s0.quad) := by
  have hsent : ¬ (s0.target.left = 0 ∧ s0.target.right = 0) := by
    rw [htgt]
    rintro ⟨hl, hr⟩
    unfold TrailTarget.atPos at hl hr
    simp only at hl hr
    linarith
  have hdist : distanceToCursor s0.target ctx.cursorPos = 0 := by
    rw [htgt]
    unfold distanceToCursor TrailTarget.atPos
    simp
  have hprox : ¬ (0 < distanceToCursor s0.target ctx.cursorPos ∧
      distanceToCursor s0.target ctx.cursorPos ≤ ctx.distanceThreshold) := by
    rw [hdist]
    rintro ⟨h0, -⟩
    exact lt_irrefl 0 h0
  have hdw : (ctx.dwellTreshold : ℤ) ≤ dwellMillis s0.cursorLastMoved ctx.now := by
    unfold dwellMillis
    refine le_trans (Int.le_floor.mpr ?_) (le_max_right 0 _)
    push_cast
    exact hdwell
  rw [tick_of_dwelled s0 ctx hsent hprox hcur hdw]
  have hsettled : settledQ (TrailQuad.interp s0.quad (TrailTarget.atPos ctx.cursorPos)
      (max 0 (ctx.now - s0.updatedAt)) ctx.decayFast ctx.decaySlow)
      (TrailTarget.atPos ctx.cursorPos) SETTLED_THRESHOLD := by
    apply interp_settledQ (le_max_left 0 _) hf hs
    rw [← htgt]
    exact hset
  refine ⟨htgt.symm, ?_, hsettled, ?_⟩
  · exact decide_eq_false (by push_neg; exact ⟨hsettled, hdw⟩)
  · intro hcl
    show TrailQuad.interp s0.quad (TrailTarget.atPos ctx.cursorPos)
      (max 0 (ctx.now - s0.updatedAt)) ctx.decayFast ctx.decaySlow = s0.quad
    funext i
    have hcl' := hcl i
    rw [htgt] at hcl'
    exact interp_of_clamped _ _ _ hcl'

/-- C1 counterexample: exDrift is settled (corner 0 sits 0.05 cells from its
    target corner), its cursor has been unchanged at the target anchor for a
    full second with a 50ms dwell threshold, yet tick moves quad corner 0 from
    x = 5.05 to x = 5.025: the claim that further ticks leave the Quad corners
    unchanged is false. -/
theorem tick_idempotent_rest_cx :
    exDrift.settled SETTLED_THRESHOLD ∧
    exDrift.lastCursorPos = exCtxHold.cursorPos ∧
    exDrift.target = TrailTarget.atPos exCtxHold.cursorPos ∧
    (exCtxHold.dwellTreshold : ℝ) ≤ (exCtxHold.now - exDrift.cursorLastMoved) * 1000 ∧
    ((exDrift.tick exCtxHold).1.quad 0).x = 201/40 ∧
    (exDrift.quad 0).x = 101/20 ∧
    ((201:ℝ)/40) ≠ 101/20 := by
  have hsettled : exDrift.settled SETTLED_THRESHOLD := by
    show settledQ exQuad exTarget SETTLED_THRESHOLD
    rw [settledQ_iff]
    intro i
    by_cases hi : i = 0
    · subst hi
      rw [ex_rawDx0, ex_rawDy0, abs_neg, abs_of_nonneg (by norm_num : (0:ℝ) ≤ 1/20), abs_zero]
      unfold SETTLED_THRESHOLD
      constructor <;> norm_num
    · have hc := ex_clamped_rest i hi
      unfold SETTLED_THRESHOLD
      exact ⟨le_trans hc.1.le (by norm_num), le_trans hc.2.le (by norm_num)⟩
  have hsent : ¬ (exDrift.target.left = 0 ∧ exDrift.target.right = 0) := by
    norm_num [exDrift, exTarget, TrailTarget.atPos, exPos]
  have hprox : ¬ (0 < distanceToCursor exDrift.target exCtxHold.cursorPos ∧
      distanceToCursor exDrift.target exCtxHold.cursorPos ≤ exCtxHold.distanceThreshold) := by
    rintro ⟨h0, -⟩
    rw [show distanceToCursor exDrift.target exCtxHold.cursorPos = 0 by
      norm_num [distanceToCursor, exDrift, exTarget, TrailTarget.atPos, exPos, exCtxHold]] at h0
    exact lt_irrefl 0 h0
  have hcur : exDrift.lastCursorPos = exCtxHold.cursorPos := rfl
  have hdw : (exCtxHold.dwellTreshold : ℤ) ≤ dwellMillis exDrift.cursorLastMoved exCtxHold.now := by
    show (50 : ℤ) ≤ dwellMillis 0 1
    unfold dwellMillis
    rw [show ((1:ℝ) - 0) * 1000 = ((1000 : ℤ) : ℝ) by norm_num, Int.floor_intCast]
    norm_num
  have ht := tick_of_dwelled exDrift exCtxHold hsent hprox hcur hdw
  have hmaxdt : max 0 (exCtxHold.now - exDrift.updatedAt) = 1/100 := by
    show max 0 ((1:ℝ) - 99/100) = 1/100
    rw [show (1:ℝ) - 99/100 = 1/100 by norm_num]
    exact max_eq_right (by norm_num)
  have hx : ((exDrift.tick exCtxHold).1.quad 0).x = 201/40 := by
    rw [ht]
    show (TrailQuad.interp exDrift.quad (TrailTarget.atPos exCtxHold.cursorPos)
      (max 0 (exCtxHold.now - exDrift.updatedAt)) exCtxHold.decayFast exCtxHold.decaySlow 0).x = 201/40
    rw [hmaxdt]
    show (TrailQuad.interp exQuad exTarget (1/100) (1/10) (2/5) 0).x = 201/40
    rw [interp_of_not_clamped (1/100) (1/10) (2/5) ex_not_clamped]
    show (exQuad 0).x + rawDx exQuad exTarget 0 * stepOf exQuad exTarget (1/100) (1/10) (2/5) 0 = 201/40
    rw [ex_rawDx0, ex_step0]
    show (5 : ℝ) + 1/20 + -(1/20) * (1/2) = 201/40
    norm_num
  exact ⟨hsettled, hcur, rfl, by show ((50:ℕ):ℝ) ≤ ((1:ℝ) - 0) * 1000; norm_num,
    hx, by norm_num [exDrift, exQuad], by norm_num⟩

/-- Witness for C1 (amended): the fully snapped resting state exRest (quad
    exactly on the (5,5) target, cursor unchanged for a full second). -/
theorem tick_idempotent_rest_witness :
    exRest.settled SETTLED_THRESHOLD ∧
    exRest.lastCursorPos = exCtxHold.cursorPos ∧
    exRest.target = TrailTarget.atPos exCtxHold.cursorPos ∧
    (exCtxHold.dwellTreshold : ℝ) ≤ (exCtxHold.now - exRest.cursorLastMoved) * 1000 ∧
    0 ≤ exCtxHold.decayFast ∧ 0 ≤ exCtxHold.decaySlow ∧
    ((exRest.tick exCtxHold).1.target = exRest.target ∧
     (exRest.tick exCtxHold).2 = false ∧
     (exRest.tick exCtxHold).1.settled SETTLED_THRESHOLD ∧
     ((∀ i, clamped exRest.quad exRest.target i) → (exRest.tick exCtxHold).1.quad = exRest.quad)) := by
  have hset : exRest.settled SETTLED_THRESHOLD := by
    show settledQ (TrailQuad.atPos exPos) exTarget SETTLED_THRESHOLD
    rw [show exTarget = TrailTarget.atPos exPos from rfl, settledQ_iff]
    intro i
    rw [rawDx_atPos, rawDy_atPos, abs_zero]
    unfold SETTLED_THRESHOLD
    constructor <;> norm_num
  have hdwell : (exCtxHold.dwellTreshold : ℝ) ≤ (exCtxHold.now - exRest.cursorLastMoved) * 1000 := by
    show ((50:ℕ):ℝ) ≤ ((1:ℝ) - 0) * 1000
    norm_num
  have hf : (0:ℝ) ≤ exCtxHold.decayFast := by show (0:ℝ) ≤ 1/10; norm_num
  have hs : (0:ℝ) ≤ exCtxHold.decaySlow := by show (0:ℝ) ≤ 2/5; norm_num
  exact ⟨hset, rfl, rfl, hdwell, hf, hs,
    tick_idempotent_rest exRest exCtxHold hset rfl rfl hdwell hf hs⟩

/-- Witness for C8 at exQuad against the 1x1 box exTarget with dt = 0.01 and
    decays 0.1/0.4. -/
theorem interp_no_division_by_zero_witness :
    (∀ i, clamped exQuad exTarget i → TrailQuad.interp exQuad exTarget (1/100) (1/10) (2/5) i = exQuad i) ∧
    (∀ i, ¬ clamped exQuad exTarget i → targetDiag2 exTarget * cornerNorm exQuad exTarget i ≠ 0) ∧
    (|maxDot exQuad exTarget - minDot exQuad exTarget| < 1e-6 →
      ∀ i, decayOf exQuad exTarget (1/10) (2/5) i = 2/5) ∧
    (¬ |maxDot exQuad exTarget - minDot exQuad exTarget| < 1e-6 →
      maxDot exQuad exTarget - minDot exQuad exTarget ≠ 0) ∧
    (∀ i, decayOf exQuad exTarget (1/10) (2/5) i ≠ 0) :=
  interp_no_division_by_zero exQuad exTarget (1/100) (1/10) (2/5) rfl rfl
    (by norm_num) (by norm_num) (by norm_num)

end

